import Mathlib

/-!
Verification of the pulse-map restructuring transform of the ic3-data
repository (src/ic3_data_ext/ext_boost.cpp, function restructure_pulsemap).

The C++ function receives a Python object, extracts an I3RecoPulseSeriesMap
(an ordered map from sensor key to a vector of I3RecoPulse, each pulse
carrying a charge and a time), then iterates the map in stored order,
building four fresh containers:
  - a flat list of all charges,
  - a flat list of all times,
  - a dict mapping each key to its list of times,
  - a dict mapping each key to its list of charges,
and returns them as the tuple (charges, times, dom_times_dict,
dom_charges_dict).

The embedding below mirrors that code.  Charges and times are modelled as
rationals: the transform performs no arithmetic on them, it only copies the
field values, so any numeric carrier is faithful.  Sensor keys are an
arbitrary type with decidable equality, matching the opaque OMKey.
-/

/-- A single reconstructed pulse: the two numeric fields the source reads
through the accessors GetCharge() and GetTime(). -/
structure I3RecoPulse where
  charge : ℚ
  time : ℚ
deriving DecidableEq, Repr

/-- Accessor GetCharge() of I3RecoPulse. -/
def I3RecoPulse.GetCharge (p : I3RecoPulse) : ℚ := p.charge

/-- Accessor GetTime() of I3RecoPulse. -/
def I3RecoPulse.GetTime (p : I3RecoPulse) : ℚ := p.time

/-- An I3RecoPulseSeriesMap: an ordered map from sensor key to the stored
sequence of pulses, embedded as an association list in stored key order
(std::map iteration order). -/
abbrev I3RecoPulseSeriesMap (K : Type) := List (K × List I3RecoPulse)

/-- The inner loop of restructure_pulsemap: for i = 0 .. size-1 it appends
dom_pulses.second.at(i).GetCharge() to dom_charges and
dom_pulses.second.at(i).GetTime() to dom_times, building both local lists
in one pass over the pulse sequence in stored order. -/
def extract_pulse_lists : List I3RecoPulse → List ℚ × List ℚ
  | [] => ([], [])
  | p :: ps =>
      let rest := extract_pulse_lists ps
      (p.GetCharge :: rest.1, p.GetTime :: rest.2)

/-- Assignment dict[k] = v on a boost::python::dict, embedded as an
association list: overwrite in place if the key is present, otherwise
append the new binding at the end (python dicts keep insertion order). -/
def dictInsert {K V : Type} [DecidableEq K] (d : List (K × V)) (k : K) (v : V) :
    List (K × V) :=
  if k ∈ d.map Prod.fst then
    d.map (fun kv => if kv.1 = k then (k, v) else kv)
  else
    d ++ [(k, v)]

/-- Lookup dict[k] on an embedded dict: the value of the first binding of k. -/
def dictLookup {K V : Type} [DecidableEq K] : List (K × V) → K → Option V
  | [], _ => Option.none
  | kv :: d, k => if kv.1 = k then Option.some kv.2 else dictLookup d k

/-- The variables live during a call of restructure_pulsemap: the extracted
input map (the C++ holds it by reference) together with the four output
containers charges, times, dom_times_dict, dom_charges_dict. -/
structure RestructureState (K : Type) where
  pulse_map : I3RecoPulseSeriesMap K
  charges : List ℚ
  times : List ℚ
  dom_times_dict : List (K × List ℚ)
  dom_charges_dict : List (K × List ℚ)
deriving Repr

/-- One iteration of the outer loop of restructure_pulsemap for the entry
dom_pulses: build the local lists dom_charges and dom_times, store them in
the two dicts under dom_pulses.first, and extend the flat lists.  The step
writes only the four output containers; the input map is not assigned. -/
def restructure_step {K : Type} [DecidableEq K] (st : RestructureState K)
    (dom_pulses : K × List I3RecoPulse) : RestructureState K :=
  let dom_lists := extract_pulse_lists dom_pulses.2
  { st with
    charges := st.charges ++ dom_lists.1
    times := st.times ++ dom_lists.2
    dom_times_dict := dictInsert st.dom_times_dict dom_pulses.1 dom_lists.2
    dom_charges_dict := dictInsert st.dom_charges_dict dom_pulses.1 dom_lists.1 }

/-- The body of restructure_pulsemap after a successful extraction, acting
on the call state: initialise the four output containers fresh and empty,
then run the outer loop over the input map in its stored order. -/
def restructure_body {K : Type} [DecidableEq K] (st : RestructureState K) :
    RestructureState K :=
  st.pulse_map.foldl restructure_step
    { st with
      charges := []
      times := []
      dom_times_dict := []
      dom_charges_dict := [] }

/-- restructure_pulsemap on an already extracted map: the returned tuple
(charges, times, dom_times_dict, dom_charges_dict). -/
def restructure_pulsemap {K : Type} [DecidableEq K]
    (pulse_map : I3RecoPulseSeriesMap K) :
    List ℚ × List ℚ × List (K × List ℚ) × List (K × List ℚ) :=
  let st := restructure_body
    { pulse_map := pulse_map
      charges := []
      times := []
      dom_times_dict := []
      dom_charges_dict := [] }
  (st.charges, st.times, st.dom_times_dict, st.dom_charges_dict)

/-- Spec-side model (section 3 of the spec): FlatCharges, the charges of all
pulses of all keys, concatenated in map-iteration order. -/
def FlatCharges {K : Type} (pm : I3RecoPulseSeriesMap K) : List ℚ :=
  (pm.map (fun dp => dp.2.map I3RecoPulse.GetCharge)).flatten

/-- Spec-side model: FlatTimes, the times of all pulses of all keys,
concatenated in map-iteration order. -/
def FlatTimes {K : Type} (pm : I3RecoPulseSeriesMap K) : List ℚ :=
  (pm.map (fun dp => dp.2.map I3RecoPulse.GetTime)).flatten

/-- Spec-side model: PerKeyTimes, each key bound to its own list of pulse
times, keys in map-iteration order. -/
def PerKeyTimes {K : Type} (pm : I3RecoPulseSeriesMap K) : List (K × List ℚ) :=
  pm.map (fun dp => (dp.1, dp.2.map I3RecoPulse.GetTime))

/-- Spec-side model: PerKeyCharges, each key bound to its own list of pulse
charges, keys in map-iteration order. -/
def PerKeyCharges {K : Type} (pm : I3RecoPulseSeriesMap K) : List (K × List ℚ) :=
  pm.map (fun dp => (dp.1, dp.2.map I3RecoPulse.GetCharge))

lemma extract_pulse_lists_eq (ps : List I3RecoPulse) :
    extract_pulse_lists ps =
      (ps.map I3RecoPulse.GetCharge, ps.map I3RecoPulse.GetTime) := by
  induction ps with
  | nil => rfl
  | cons p ps ih => simp [extract_pulse_lists, ih]

lemma dictInsert_of_not_mem {K V : Type} [DecidableEq K]
    (d : List (K × V)) (k : K) (v : V) (h : k ∉ d.map Prod.fst) :
    dictInsert d k v = d ++ [(k, v)] := by
  simp [dictInsert, h]

lemma restructure_step_pulse_map {K : Type} [DecidableEq K]
    (st : RestructureState K) (dp : K × List I3RecoPulse) :
    (restructure_step st dp).pulse_map = st.pulse_map := rfl

/-- The outer loop never writes the input map. -/
lemma foldl_restructure_step_pulse_map {K : Type} [DecidableEq K]
    (pm : I3RecoPulseSeriesMap K) (st : RestructureState K) :
    (pm.foldl restructure_step st).pulse_map = st.pulse_map := by
  induction pm generalizing st with
  | nil => rfl
  | cons dp pm ih => simpa [restructure_step_pulse_map] using ih (restructure_step st dp)

/-- Running the outer loop from an arbitrary state whose dict keys are
disjoint from the (duplicate-free) remaining input keys appends exactly the
canonical per-key and flat data. -/
lemma foldl_restructure_step_eq {K : Type} [DecidableEq K]
    (pm : I3RecoPulseSeriesMap K) (st : RestructureState K)
    (hnd : (pm.map Prod.fst).Nodup)
    (hdt : ∀ k ∈ pm.map Prod.fst, k ∉ st.dom_times_dict.map Prod.fst)
    (hdc : ∀ k ∈ pm.map Prod.fst, k ∉ st.dom_charges_dict.map Prod.fst) :
    pm.foldl restructure_step st =
      { pulse_map := st.pulse_map
        charges := st.charges ++ FlatCharges pm
        times := st.times ++ FlatTimes pm
        dom_times_dict := st.dom_times_dict ++ PerKeyTimes pm
        dom_charges_dict := st.dom_charges_dict ++ PerKeyCharges pm } := by
  induction pm generalizing st with
  | nil => simp [FlatCharges, FlatTimes, PerKeyTimes, PerKeyCharges]
  | cons dp pm ih =>
      obtain ⟨k, ps⟩ := dp
      have hk_t : k ∉ st.dom_times_dict.map Prod.fst := hdt k (by simp)
      have hk_c : k ∉ st.dom_charges_dict.map Prod.fst := hdc k (by simp)
      have hstep : restructure_step st (k, ps) =
          { st with
            charges := st.charges ++ ps.map I3RecoPulse.GetCharge
            times := st.times ++ ps.map I3RecoPulse.GetTime
            dom_times_dict :=
              st.dom_times_dict ++ [(k, ps.map I3RecoPulse.GetTime)]
            dom_charges_dict :=
              st.dom_charges_dict ++ [(k, ps.map I3RecoPulse.GetCharge)] } := by
        simp [restructure_step, extract_pulse_lists_eq,
          dictInsert_of_not_mem _ _ _ hk_t, dictInsert_of_not_mem _ _ _ hk_c]
      have hnd' : (pm.map Prod.fst).Nodup := by
        simpa using hnd.of_cons
      have hk_not : k ∉ pm.map Prod.fst := by
        have h2 := hnd
        simp only [List.map_cons] at h2
        exact (List.nodup_cons.mp h2).1
      have hk_ne : ∀ k2 ∈ pm.map Prod.fst, k2 ≠ k := by
        intro k2 hk2 he
        exact hk_not (he ▸ hk2)
      have hdt2 : ∀ k2 ∈ pm.map Prod.fst,
          k2 ∉ (st.dom_times_dict ++ [(k, ps.map I3RecoPulse.GetTime)]).map Prod.fst := by
        intro k2 hk2
        simp only [List.map_append, List.mem_append]
        rintro (h | h)
        · exact hdt k2 (by simp [hk2]) h
        · simp at h
          exact hk_ne k2 hk2 h
      have hdc2 : ∀ k2 ∈ pm.map Prod.fst,
          k2 ∉ (st.dom_charges_dict ++ [(k, ps.map I3RecoPulse.GetCharge)]).map Prod.fst := by
        intro k2 hk2
        simp only [List.map_append, List.mem_append]
        rintro (h | h)
        · exact hdc k2 (by simp [hk2]) h
        · simp at h
          exact hk_ne k2 hk2 h
      rw [List.foldl_cons, hstep, ih _ hnd' hdt2 hdc2]
      simp [FlatCharges, FlatTimes, PerKeyTimes, PerKeyCharges]

/-- On a duplicate-free input map the body produces exactly the canonical
flat lists and per-key dicts, and keeps the input map intact. -/
lemma restructure_body_eq {K : Type} [DecidableEq K]
    (st : RestructureState K) (hnd : (st.pulse_map.map Prod.fst).Nodup) :
    restructure_body st =
      { pulse_map := st.pulse_map
        charges := FlatCharges st.pulse_map
        times := FlatTimes st.pulse_map
        dom_times_dict := PerKeyTimes st.pulse_map
        dom_charges_dict := PerKeyCharges st.pulse_map } := by
  unfold restructure_body
  rw [foldl_restructure_step_eq _ _ hnd (by simp) (by simp)]
  simp

/-- Looking a key up in the canonical dict built by mapping f over a
duplicate-free association list returns f of the stored value. -/
lemma dictLookup_map_of_mem {K A V : Type} [DecidableEq K]
    (pm : List (K × A)) (f : A → V) (k : K) (a : A)
    (hnd : (pm.map Prod.fst).Nodup) (hmem : (k, a) ∈ pm) :
    dictLookup (pm.map fun dp => (dp.1, f dp.2)) k = Option.some (f a) := by
  induction pm with
  | nil => cases hmem
  | cons dp pm ih =>
      rcases List.mem_cons.mp hmem with h | h
      · subst h
        simp [dictLookup]
      · have hk_in : k ∈ pm.map Prod.fst :=
          List.mem_map.mpr ⟨(k, a), h, rfl⟩
        have hne : dp.1 ≠ k := by
          intro he
          have h2 := hnd
          simp only [List.map_cons] at h2
          exact (List.nodup_cons.mp h2).1 (he ▸ hk_in)
        have hnd' : (pm.map Prod.fst).Nodup := by
          have h2 := hnd
          simp only [List.map_cons] at h2
          exact (List.nodup_cons.mp h2).2
        simpa [dictLookup, hne] using ih hnd' h

/-- Keys whose pulse sequence is empty contribute nothing to FlatCharges:
dropping them leaves the flat charges unchanged. -/
lemma FlatCharges_filter_ne_nil {K : Type} (pm : I3RecoPulseSeriesMap K) :
    FlatCharges (pm.filter fun dp => !dp.2.isEmpty) = FlatCharges pm := by
  induction pm with
  | nil => rfl
  | cons dp pm ih =>
      by_cases h : dp.2 = []
      · simp [FlatCharges, List.filter_cons, h] at ih ⊢
        exact ih
      · simp [FlatCharges, List.filter_cons, List.isEmpty_iff, h] at ih ⊢
        exact ih

/-- Keys whose pulse sequence is empty contribute nothing to FlatTimes. -/
lemma FlatTimes_filter_ne_nil {K : Type} (pm : I3RecoPulseSeriesMap K) :
    FlatTimes (pm.filter fun dp => !dp.2.isEmpty) = FlatTimes pm := by
  induction pm with
  | nil => rfl
  | cons dp pm ih =>
      by_cases h : dp.2 = []
      · simp [FlatTimes, List.filter_cons, h] at ih ⊢
        exact ih
      · simp [FlatTimes, List.filter_cons, List.isEmpty_iff, h] at ih ⊢
        exact ih

/-- A Python-level pulse-like element as it can appear at the binding
boundary: either a genuine I3RecoPulse, or an object on which one of the
numeric fields charge / time is absent. -/
inductive PyPulseObj where
  | pulse (p : I3RecoPulse)
  | missing_charge (time : ℚ)
  | missing_time (charge : ℚ)
  | missing_both
deriving DecidableEq, Repr

/-- Whether a Python-level element lacks a numeric charge or time field. -/
def lacks_numeric_field : PyPulseObj → Bool
  | PyPulseObj.pulse _ => false
  | _ => true

/-- The shapes of Python argument relevant to the error-handling claims:
a Python object wrapping a genuine C++ I3RecoPulseSeriesMap, a generic
Python mapping of sequences of pulse-like objects that does not wrap the
C++ type, a plain number, or None. -/
inductive PyObject (K : Type) where
  | reco_pulse_series_map (pm : I3RecoPulseSeriesMap K)
  | generic_map (m : List (K × List PyPulseObj))
  | number (x : ℚ)
  | none_obj
deriving DecidableEq

/-- Whether the Python object wraps a C++ I3RecoPulseSeriesMap — the only
shape boost python extraction of that type accepts. -/
def is_reco_pulse_series_map {K : Type} : PyObject K → Bool
  | PyObject.reco_pulse_series_map _ => true
  | _ => false

/-- The error taxonomy named by the spec. -/
inductive PulseMapError where
  | InputTypeError
  | MissingFieldError
deriving DecidableEq, Repr

/-- The extraction on the first line of the function body: extracting an
I3RecoPulseSeriesMap reference from the Python argument succeeds exactly
when the object wraps that C++ type, and throws a Python TypeError (the
InputTypeError of the spec) on every other object — including a generic
mapping whose elements are pulse-like but do not form the C++ type. -/
def extract_reco_pulse_series_map {K : Type} :
    PyObject K → Except PulseMapError (I3RecoPulseSeriesMap K)
  | PyObject.reco_pulse_series_map pm => Except.ok pm
  | _ => Except.error PulseMapError.InputTypeError

/-- A full call of restructure_pulsemap on a Python argument: extract the
map, then run the restructuring loop; on extraction failure the error
propagates and no output tuple is produced. -/
def restructure_pulsemap_call {K : Type} [DecidableEq K] (obj : PyObject K) :
    Except PulseMapError
      (List ℚ × List ℚ × List (K × List ℚ) × List (K × List ℚ)) :=
  match extract_reco_pulse_series_map obj with
  | Except.error e => Except.error e
  | Except.ok pm => Except.ok (restructure_pulsemap pm)

/-- On a duplicate-free input map, restructure_pulsemap returns exactly the
canonical 4-tuple of the spec data model. -/
lemma restructure_pulsemap_eq {K : Type} [DecidableEq K]
    (pm : I3RecoPulseSeriesMap K) (hnd : (pm.map Prod.fst).Nodup) :
    restructure_pulsemap pm =
      (FlatCharges pm, FlatTimes pm, PerKeyTimes pm, PerKeyCharges pm) := by
  unfold restructure_pulsemap
  rw [show (restructure_body
      { pulse_map := pm, charges := [], times := [],
        dom_times_dict := [], dom_charges_dict := [] }) = _ from
    restructure_body_eq _ (by simpa using hnd)]

/-- Sensor keys for the concrete test inputs of the spec. -/
inductive SensorKey where
  | A
  | B
deriving DecidableEq, Repr

/-- The input map of the spec test P2: one key, one pulse (1.5, 10.0). -/
def pulse_map_P2 : I3RecoPulseSeriesMap SensorKey :=
  [(SensorKey.A, [⟨1.5, 10.0⟩])]

/-- The input map of the spec test P3: A with pulses (2,20),(3,30), then B
with pulse (4,40). -/
def pulse_map_P3 : I3RecoPulseSeriesMap SensorKey :=
  [(SensorKey.A, [⟨2, 20⟩, ⟨3, 30⟩]), (SensorKey.B, [⟨4, 40⟩])]

/-- The input map of the spec test P4: one key with zero pulses. -/
def pulse_map_P4 : I3RecoPulseSeriesMap SensorKey :=
  [(SensorKey.A, [])]

/-- C1: for every valid (duplicate-free) input map, concatenating the
per-key charge lists of the returned dom_charges_dict in map-iteration
order gives exactly the returned flat charges, and likewise the per-key
time lists of dom_times_dict give the flat times. -/
theorem C1_concatenation_identity {K : Type} [DecidableEq K]
    (pm : I3RecoPulseSeriesMap K) (hnd : (pm.map Prod.fst).Nodup) :
    ((restructure_pulsemap pm).2.2.2.map Prod.snd).flatten =
        (restructure_pulsemap pm).1 ∧
      ((restructure_pulsemap pm).2.2.1.map Prod.snd).flatten =
        (restructure_pulsemap pm).2.1 := by
  rw [restructure_pulsemap_eq pm hnd]
  constructor
  · simp [PerKeyCharges, FlatCharges, Function.comp_def]
  · simp [PerKeyTimes, FlatTimes, Function.comp_def]

theorem C1_concatenation_identity_witness :
    (pulse_map_P3.map Prod.fst).Nodup ∧
      (((restructure_pulsemap pulse_map_P3).2.2.2.map Prod.snd).flatten =
          (restructure_pulsemap pulse_map_P3).1 ∧
        ((restructure_pulsemap pulse_map_P3).2.2.1.map Prod.snd).flatten =
          (restructure_pulsemap pulse_map_P3).2.1) :=
  ⟨by decide, C1_concatenation_identity pulse_map_P3 (by decide)⟩

/-- C2: for every valid (duplicate-free) input map, the flat charges and
flat times have the same length, equal to the sum over the keys of the
lengths of the per-key charge lists of dom_charges_dict. -/
theorem C2_length_identity {K : Type} [DecidableEq K]
    (pm : I3RecoPulseSeriesMap K) (hnd : (pm.map Prod.fst).Nodup) :
    (restructure_pulsemap pm).1.length = (restructure_pulsemap pm).2.1.length ∧
      (restructure_pulsemap pm).1.length =
        ((restructure_pulsemap pm).2.2.2.map (fun kv => kv.2.length)).sum := by
  rw [restructure_pulsemap_eq pm hnd]
  constructor
  · simp [FlatCharges, FlatTimes, Function.comp_def, List.length_map]
  · simp [FlatCharges, PerKeyCharges, Function.comp_def, List.length_map]

theorem C2_length_identity_witness :
    (pulse_map_P3.map Prod.fst).Nodup ∧
      ((restructure_pulsemap pulse_map_P3).1.length =
          (restructure_pulsemap pulse_map_P3).2.1.length ∧
        (restructure_pulsemap pulse_map_P3).1.length =
          ((restructure_pulsemap pulse_map_P3).2.2.2.map
            (fun kv => kv.2.length)).sum) :=
  ⟨by decide, C2_length_identity pulse_map_P3 (by decide)⟩

/-- C3: the transform iterates the map in stored order and the pulses in
stored order without any reordering — on every duplicate-free map the
result is exactly the canonical order-preserving 4-tuple
(flat charges, flat times, per-key times, per-key charges) — and the two
concrete examples of the spec hold: P2 gives
([1.5], [10.0], A to [10.0], A to [1.5]), and P3 gives flat charges
[2,3,4] and flat times [20,30,40]. -/
theorem C3_order_preservation :
    (∀ (K : Type) (instK : DecidableEq K) (pm : I3RecoPulseSeriesMap K),
        (pm.map Prod.fst).Nodup →
          @restructure_pulsemap K instK pm =
            (FlatCharges pm, FlatTimes pm, PerKeyTimes pm, PerKeyCharges pm)) ∧
      restructure_pulsemap pulse_map_P2 =
        ([1.5], [10.0], [(SensorKey.A, [10.0])], [(SensorKey.A, [1.5])]) ∧
      (restructure_pulsemap pulse_map_P3).1 = [2, 3, 4] ∧
      (restructure_pulsemap pulse_map_P3).2.1 = [20, 30, 40] := by
  refine ⟨fun K instK pm hnd => restructure_pulsemap_eq pm hnd, ?_, ?_, ?_⟩
  · simp [pulse_map_P2, restructure_pulsemap, restructure_body,
      restructure_step, extract_pulse_lists, dictInsert,
      I3RecoPulse.GetCharge, I3RecoPulse.GetTime]
  · simp [pulse_map_P3, restructure_pulsemap, restructure_body,
      restructure_step, extract_pulse_lists, dictInsert,
      I3RecoPulse.GetCharge, I3RecoPulse.GetTime]
  · simp [pulse_map_P3, restructure_pulsemap, restructure_body,
      restructure_step, extract_pulse_lists, dictInsert,
      I3RecoPulse.GetCharge, I3RecoPulse.GetTime]

theorem C3_order_preservation_witness :
    (pulse_map_P3.map Prod.fst).Nodup ∧
      restructure_pulsemap pulse_map_P3 =
        (FlatCharges pulse_map_P3, FlatTimes pulse_map_P3,
          PerKeyTimes pulse_map_P3, PerKeyCharges pulse_map_P3) :=
  ⟨by decide,
    C3_order_preservation.1 SensorKey inferInstance pulse_map_P3 (by decide)⟩

/-- C5: the empty input map gives two empty flat lists and two empty
dicts. -/
theorem C5_empty_input {K : Type} [DecidableEq K] :
    restructure_pulsemap ([] : I3RecoPulseSeriesMap K) = ([], [], [], []) :=
  rfl

/-- C4: for every key (k, ps) of a valid (duplicate-free) input map, the
returned dom_charges_dict and dom_times_dict bind k to lists of equal
length, and position i of the charge list is the charge of the very pulse
whose time sits at position i of the time list — the i-th pulse of ps. -/
theorem C4_per_key_correspondence {K : Type} [DecidableEq K]
    (pm : I3RecoPulseSeriesMap K) (k : K) (ps : List I3RecoPulse)
    (hnd : (pm.map Prod.fst).Nodup) (hmem : (k, ps) ∈ pm) :
    ∃ cs ts : List ℚ,
      dictLookup (restructure_pulsemap pm).2.2.2 k = Option.some cs ∧
      dictLookup (restructure_pulsemap pm).2.2.1 k = Option.some ts ∧
      cs.length = ts.length ∧ cs.length = ps.length ∧
      ∀ i (hi : i < ps.length),
        cs[i]? = Option.some (ps.get ⟨i, hi⟩).GetCharge ∧
        ts[i]? = Option.some (ps.get ⟨i, hi⟩).GetTime := by
  refine ⟨ps.map I3RecoPulse.GetCharge, ps.map I3RecoPulse.GetTime,
    ?_, ?_, by simp, by simp, ?_⟩
  · rw [restructure_pulsemap_eq pm hnd]
    exact dictLookup_map_of_mem pm _ k ps hnd hmem
  · rw [restructure_pulsemap_eq pm hnd]
    exact dictLookup_map_of_mem pm _ k ps hnd hmem
  · intro i hi
    constructor
    · simp [List.getElem?_map, List.getElem?_eq_getElem hi]
    · simp [List.getElem?_map, List.getElem?_eq_getElem hi]

theorem C4_per_key_correspondence_witness :
    ((pulse_map_P3.map Prod.fst).Nodup ∧
      (SensorKey.A, [(⟨2, 20⟩ : I3RecoPulse), ⟨3, 30⟩]) ∈ pulse_map_P3) ∧
    ∃ cs ts : List ℚ,
      dictLookup (restructure_pulsemap pulse_map_P3).2.2.2 SensorKey.A =
        Option.some cs ∧
      dictLookup (restructure_pulsemap pulse_map_P3).2.2.1 SensorKey.A =
        Option.some ts ∧
      cs.length = ts.length ∧
      cs.length = [(⟨2, 20⟩ : I3RecoPulse), ⟨3, 30⟩].length ∧
      ∀ i (hi : i < [(⟨2, 20⟩ : I3RecoPulse), ⟨3, 30⟩].length),
        cs[i]? =
          Option.some ([(⟨2, 20⟩ : I3RecoPulse), ⟨3, 30⟩].get ⟨i, hi⟩).GetCharge ∧
        ts[i]? =
          Option.some ([(⟨2, 20⟩ : I3RecoPulse), ⟨3, 30⟩].get ⟨i, hi⟩).GetTime :=
  ⟨⟨by decide, by decide⟩,
    C4_per_key_correspondence pulse_map_P3 SensorKey.A _ (by decide) (by decide)⟩

/-- C6: on a valid (duplicate-free) input map, a key bound to the empty
pulse sequence is present in both returned dicts bound to the empty list,
and empty-sequence keys contribute nothing to the flat lists (dropping
them leaves FlatCharges and FlatTimes unchanged); concretely, the P4 input
(one key, zero pulses) gives ([], [], A to [], A to []). -/
theorem C6_empty_sequence_key {K : Type} [DecidableEq K]
    (pm : I3RecoPulseSeriesMap K) (k : K)
    (hnd : (pm.map Prod.fst).Nodup)
    (hmem : (k, ([] : List I3RecoPulse)) ∈ pm) :
    dictLookup (restructure_pulsemap pm).2.2.1 k = Option.some [] ∧
    dictLookup (restructure_pulsemap pm).2.2.2 k = Option.some [] ∧
    (restructure_pulsemap pm).1 =
      FlatCharges (pm.filter fun dp => !dp.2.isEmpty) ∧
    (restructure_pulsemap pm).2.1 =
      FlatTimes (pm.filter fun dp => !dp.2.isEmpty) ∧
    restructure_pulsemap pulse_map_P4 =
      ([], [], [(SensorKey.A, [])], [(SensorKey.A, [])]) := by
  rw [restructure_pulsemap_eq pm hnd]
  refine ⟨?_, ?_, ?_, ?_, by decide⟩
  · simpa using dictLookup_map_of_mem pm
      (fun ps => ps.map I3RecoPulse.GetTime) k [] hnd hmem
  · simpa using dictLookup_map_of_mem pm
      (fun ps => ps.map I3RecoPulse.GetCharge) k [] hnd hmem
  · exact (FlatCharges_filter_ne_nil pm).symm
  · exact (FlatTimes_filter_ne_nil pm).symm

theorem C6_empty_sequence_key_witness :
    ((pulse_map_P4.map Prod.fst).Nodup ∧
      (SensorKey.A, ([] : List I3RecoPulse)) ∈ pulse_map_P4) ∧
    dictLookup (restructure_pulsemap pulse_map_P4).2.2.1 SensorKey.A =
      Option.some [] ∧
    dictLookup (restructure_pulsemap pulse_map_P4).2.2.2 SensorKey.A =
      Option.some [] :=
  ⟨⟨by decide, by decide⟩,
    ⟨(C6_empty_sequence_key pulse_map_P4 SensorKey.A (by decide) (by decide)).1,
      (C6_empty_sequence_key pulse_map_P4 SensorKey.A (by decide) (by decide)).2.1⟩⟩

/-- C7 as stated is false: on an input whose element lacks the numeric
charge field, the call fails with InputTypeError (the extraction rejects
the object, which cannot be a typed I3RecoPulseSeriesMap), not with a
MissingFieldError. -/
theorem C7_counterexample :
    restructure_pulsemap_call
        (PyObject.generic_map [(SensorKey.A, [PyPulseObj.missing_charge 10])]) =
      Except.error PulseMapError.InputTypeError ∧
    PulseMapError.InputTypeError ≠ PulseMapError.MissingFieldError :=
  ⟨rfl, by decide⟩

/-- C7 amended: the call never fails with MissingFieldError; an input
containing an element that lacks a numeric charge or time field is not a
typed I3RecoPulseSeriesMap, so it fails with InputTypeError; and every
call either succeeds or fails with InputTypeError — the sole failure
mode. -/
theorem C7_failure_modes {K : Type} [DecidableEq K] :
    (∀ obj : PyObject K,
        restructure_pulsemap_call obj ≠
          Except.error PulseMapError.MissingFieldError) ∧
    (∀ m : List (K × List PyPulseObj),
        (∃ kl ∈ m, ∃ p ∈ kl.2, lacks_numeric_field p = true) →
          restructure_pulsemap_call (PyObject.generic_map m) =
            Except.error PulseMapError.InputTypeError) ∧
    (∀ obj : PyObject K,
        (∃ out, restructure_pulsemap_call obj = Except.ok out) ∨
          restructure_pulsemap_call obj =
            Except.error PulseMapError.InputTypeError) := by
  refine ⟨?_, ?_, ?_⟩
  · intro obj
    cases obj <;> simp [restructure_pulsemap_call, extract_reco_pulse_series_map]
  · intro m _
    rfl
  · intro obj
    cases obj <;>
      simp [restructure_pulsemap_call, extract_reco_pulse_series_map]

theorem C7_failure_modes_witness :
    (∃ kl ∈ [(SensorKey.A, [PyPulseObj.missing_charge 10])],
        ∃ p ∈ kl.2, lacks_numeric_field p = true) ∧
    restructure_pulsemap_call
        (PyObject.generic_map [(SensorKey.A, [PyPulseObj.missing_charge 10])]) =
      Except.error PulseMapError.InputTypeError :=
  ⟨⟨(SensorKey.A, [PyPulseObj.missing_charge 10]), by decide, by decide⟩,
    C7_failure_modes.2.1 _
      ⟨(SensorKey.A, [PyPulseObj.missing_charge 10]), by decide, by decide⟩⟩

/-- C8: a call on any argument that does not wrap an I3RecoPulseSeriesMap
— in particular on a plain number — fails with InputTypeError immediately
at the extraction, the error result carrying no output tuple. -/
theorem C8_type_error {K : Type} [DecidableEq K] :
    (∀ x : ℚ,
        restructure_pulsemap_call (PyObject.number x : PyObject K) =
          Except.error PulseMapError.InputTypeError) ∧
    (∀ obj : PyObject K,
        is_reco_pulse_series_map obj = false →
          restructure_pulsemap_call obj =
            Except.error PulseMapError.InputTypeError) := by
  refine ⟨fun x => rfl, ?_⟩
  intro obj h
  cases obj with
  | reco_pulse_series_map pm => cases h
  | generic_map m => rfl
  | number x => rfl
  | none_obj => rfl

theorem C8_type_error_witness :
    is_reco_pulse_series_map (PyObject.number 5 : PyObject SensorKey) = false ∧
    restructure_pulsemap_call (PyObject.number 5 : PyObject SensorKey) =
      Except.error PulseMapError.InputTypeError :=
  ⟨rfl, C8_type_error.2 (PyObject.number 5) rfl⟩

/-- C9: the call never mutates the input map — after the body runs from
any call state, the pulse_map component is exactly the one it started
with — and the four outputs are built fresh from empty containers,
depending only on the input map, never on prior contents of the output
slots. -/
theorem C9_no_input_mutation {K : Type} [DecidableEq K]
    (st : RestructureState K) :
    (restructure_body st).pulse_map = st.pulse_map ∧
    ((restructure_body st).charges, (restructure_body st).times,
      (restructure_body st).dom_times_dict,
      (restructure_body st).dom_charges_dict) =
      restructure_pulsemap st.pulse_map := by
  constructor
  · unfold restructure_body
    rw [foldl_restructure_step_pulse_map]
  · rfl

/-- C10: on a valid (duplicate-free) input map, the key list of the
returned dom_times_dict and of the returned dom_charges_dict are both
exactly the input key list — the same keys, each exactly once, in the
input map's iteration order. -/
theorem C10_key_sets {K : Type} [DecidableEq K]
    (pm : I3RecoPulseSeriesMap K) (hnd : (pm.map Prod.fst).Nodup) :
    (restructure_pulsemap pm).2.2.1.map Prod.fst = pm.map Prod.fst ∧
    (restructure_pulsemap pm).2.2.2.map Prod.fst = pm.map Prod.fst := by
  rw [restructure_pulsemap_eq pm hnd]
  constructor
  · simp [PerKeyTimes, Function.comp_def]
  · simp [PerKeyCharges, Function.comp_def]

theorem C10_key_sets_witness :
    (pulse_map_P3.map Prod.fst).Nodup ∧
    (restructure_pulsemap pulse_map_P3).2.2.1.map Prod.fst =
      pulse_map_P3.map Prod.fst ∧
    (restructure_pulsemap pulse_map_P3).2.2.2.map Prod.fst =
      pulse_map_P3.map Prod.fst :=
  ⟨by decide, C10_key_sets pulse_map_P3 (by decide)⟩
